import Mathlib

/-!
A shallow embedding of the X11 clipboard backend (src/platform/linux/x11.rs
together with src/platform/linux/mod.rs) and proofs about it.

Conventions of the embedding:
- X11 atoms are a closed inductive type listing the atoms interned by the
  atom manager of the backend, plus the protocol constant NONE and a
  constructor for atoms owned by other clients.
- Byte buffers are lists of Nat (each entry intended to be < 256).
- Durations and instants are Nat milliseconds.
- The X connection is modelled by the list of requests sent on it; sends
  and flushes that only fail on transport loss are modelled as succeeding.
- Replies that the X server would deliver for get_property calls are
  carried on the event that triggers the call, which makes every handler a
  pure function of its inputs.
-/

namespace Arboard

/-- Atoms interned by the atom manager of the backend (the Atoms struct),
plus the protocol constant NONE and foreign atoms of other clients. -/
inductive XAtom where
  | CLIPBOARD
  | PRIMARY
  | SECONDARY
  | CLIPBOARD_MANAGER
  | SAVE_TARGETS
  | TARGETS
  | ATOM
  | INCR
  | UTF8_STRING
  | UTF8_MIME_0
  | UTF8_MIME_1
  | STRING
  | TEXT
  | TEXT_MIME_UNKNOWN
  | HTML
  | URI_LIST
  | PNG_MIME
  | X_KDE_PASSWORDMANAGERHINT
  | ARBOARD_CLIPBOARD
  | NONE
  | foreign (n : Nat)
deriving DecidableEq, Repr

/-- The three selections served by the backend (LinuxClipboardKind in
src/platform/linux/mod.rs). -/
inductive LinuxClipboardKind where
  | Clipboard
  | Primary
  | Secondary
deriving DecidableEq, Repr

/-- The error taxonomy of the crate (the variants reachable from the x11
backend). -/
inductive Error where
  | ContentNotAvailable
  | ClipboardOccupied
  | ConversionFailure
  | unknown (description : String)
deriving DecidableEq, Repr

/-- One stored payload: a byte buffer plus the atom of its format
(struct ClipboardData). -/
structure ClipboardData where
  bytes : List Nat
  format : XAtom
deriving DecidableEq, Repr

/-- Inner.atom_of: the protocol atom of a selection kind. -/
def atom_of : LinuxClipboardKind → XAtom
  | .Clipboard => .CLIPBOARD
  | .Primary => .PRIMARY
  | .Secondary => .SECONDARY

/-- Inner.kind_of: the selection kind of a protocol atom, when it is one of
the three served selections. -/
def kind_of : XAtom → Option LinuxClipboardKind
  | .CLIPBOARD => some .Clipboard
  | .PRIMARY => some .Primary
  | .SECONDARY => some .Secondary
  | _ => none

/-- LONG_TIMEOUT_DUR, in milliseconds. -/
def LONG_TIMEOUT_DUR : Nat := 4000

/-- SHORT_TIMEOUT_DUR, in milliseconds. -/
def SHORT_TIMEOUT_DUR : Nat := 10

/-- The owner branch of Inner.read: the nested loop
for data in data_list, for format in formats, if format == data.format
return data.clone. The outer loop runs over the stored list, the inner
loop over the requested formats, so the first stored payload whose format
occurs anywhere in the format list is returned. -/
def firstStoredMatching (formats : List XAtom) : List ClipboardData → Option ClipboardData
  | [] => none
  | d :: rest =>
    if formats.contains d.format then some d else firstStoredMatching formats rest

/-- The non-owner branch of Inner.read: try each requested format in order
through read_single (abstracted as the attempt oracle), skipping
ContentNotAvailable, aborting on any other error, and answering
ContentNotAvailable when the list is exhausted. -/
def readRemote (attempt : XAtom → Except Error (List Nat)) :
    List XAtom → Except Error ClipboardData
  | [] => .error .ContentNotAvailable
  | format :: rest =>
    match attempt format with
    | .ok bytes => .ok { bytes := bytes, format := format }
    | .error e =>
      if e = .ContentNotAvailable then readRemote attempt rest else .error e

/-- Inner.read. The is_owner probe and the stored data of the selection are
inputs; read_single is abstracted as the attempt oracle (it runs on a
throwaway connection opened for this call). -/
def read (isOwner : Bool) (stored : Option (List ClipboardData))
    (attempt : XAtom → Except Error (List Nat)) (formats : List XAtom) :
    Except Error ClipboardData :=
  if isOwner then
    match stored with
    | some dataList =>
      match firstStoredMatching formats dataList with
      | some d => .ok d
      | none => .error .ContentNotAvailable
    | none => .error .ContentNotAvailable
  else
    readRemote attempt formats

/-- Result of handle_read_selection_notify (enum ReadSelNotifyResult). -/
inductive ReadSelNotifyResult where
  | GotData (data : List Nat)
  | IncrStarted
  | EventNotRecognized
deriving DecidableEq, Repr

/-- A SelectionNotify event as seen by the reading side, together with the
reply that the subsequent get_property call on the destination property
would return (replyType and replyValue). incrMinLen models the second
get_property done in the INCR branch; it only feeds a capacity reserve, so
it has no observable effect on the result. -/
structure SelNotifyEv where
  property : XAtom
  target : XAtom
  selection : XAtom
  replyType : XAtom
  replyValue : List Nat
  incrMinLen : Option Nat
deriving DecidableEq, Repr

/-- The state field of a PropertyNotify event (enum Property of the
protocol); the handler only distinguishes NEW_VALUE from the rest. -/
inductive PropState where
  | NewValue
  | Deleted
deriving DecidableEq, Repr

/-- A PropertyNotify event as seen by the reading side, together with the
value that the follow-up get_property on the destination property would
return. -/
structure PropNotifyEv where
  atom : XAtom
  state : PropState
  replyValue : List Nat
deriving DecidableEq, Repr

/-- Inner.handle_read_selection_notify. The using_incr flag is an input;
the output reports the new flag value implicitly through IncrStarted.
The get_property replies are read off the event (see SelNotifyEv). -/
def handle_read_selection_notify (target_format : XAtom) (using_incr : Bool)
    (event : SelNotifyEv) : Except Error ReadSelNotifyResult :=
  if event.property = .NONE ∨ event.target ≠ target_format then
    .error .ContentNotAvailable
  else if (kind_of event.selection).isNone then
    .ok .EventNotRecognized
  else if using_incr then
    .ok .EventNotRecognized
  else if event.replyType = target_format then
    .ok (.GotData event.replyValue)
  else if event.replyType = .INCR then
    .ok .IncrStarted
  else
    .error (.unknown "incorrect type received from clipboard")

/-- Outcome of Inner.handle_read_property_notify: whether the transfer is
complete, the new accumulated data, and the new end of the timeout window
when the handler reset it (none when it left the deadline unchanged). -/
structure PropNotifyOutcome where
  done : Bool
  incr_data : List Nat
  timeoutReset : Option Nat
deriving DecidableEq, Repr

/-- Inner.handle_read_property_notify, with now the current instant in
milliseconds. A chunk is appended when it is non-empty; an empty chunk
completes the transfer; each appended chunk resets the deadline to
now + SHORT_TIMEOUT_DUR. -/
def handle_read_property_notify (using_incr : Bool) (incr_data : List Nat)
    (now : Nat) (event : PropNotifyEv) : PropNotifyOutcome :=
  if event.atom ≠ .ARBOARD_CLIPBOARD ∨ event.state ≠ .NewValue then
    { done := false, incr_data := incr_data, timeoutReset := none }
  else if !using_incr then
    { done := false, incr_data := incr_data, timeoutReset := none }
  else if event.replyValue.length = 0 then
    { done := true, incr_data := incr_data, timeoutReset := none }
  else
    { done := false, incr_data := incr_data ++ event.replyValue,
      timeoutReset := some (now + SHORT_TIMEOUT_DUR) }

/-- An event delivered to the read_single polling loop, stamped with the
instant at which poll_for_event would hand it out. -/
inductive ReadEvent where
  | selNotify (e : SelNotifyEv)
  | propNotify (e : PropNotifyEv)
  | otherEvent
deriving DecidableEq, Repr

/-- The mutable locals of the read_single polling loop. -/
structure ReadLoopState where
  using_incr : Bool
  incr_data : List Nat
  timeout_end : Nat
deriving DecidableEq, Repr

/-- The polling loop of Inner.read_single over a finite timed event trace.
Events are processed while now < timeout_end, matching the loop guard
Instant.now < timeout_end; an event stamped at or past the deadline, or an
exhausted trace, is the timeout exit returning ContentNotAvailable.
On IncrStarted the code executes timeout_end += SHORT_TIMEOUT_DUR, which
extends the current deadline instead of re-basing it at now. -/
def readSingleLoop (target_format : XAtom) :
    ReadLoopState → List (Nat × ReadEvent) → Except Error (List Nat)
  | _, [] => .error .ContentNotAvailable
  | s, (now, ev) :: rest =>
    if s.timeout_end ≤ now then .error .ContentNotAvailable
    else
      match ev with
      | .selNotify e =>
        match handle_read_selection_notify target_format s.using_incr e with
        | .error err => .error err
        | .ok (.GotData data) => .ok data
        | .ok .IncrStarted =>
          readSingleLoop target_format
            { s with using_incr := true,
                     timeout_end := s.timeout_end + SHORT_TIMEOUT_DUR } rest
        | .ok .EventNotRecognized => readSingleLoop target_format s rest
      | .propNotify e =>
        let outcome := handle_read_property_notify s.using_incr s.incr_data now e
        if outcome.done then .ok s.incr_data
        else
          readSingleLoop target_format
            { s with incr_data := outcome.incr_data,
                     timeout_end := outcome.timeoutReset.getD s.timeout_end } rest
      | .otherEvent => readSingleLoop target_format s rest

/-- Inner.read_single on a timed event trace, starting at instant start:
the deadline is initialized to start + LONG_TIMEOUT_DUR and the loop locals
to their initial values. -/
def read_single (target_format : XAtom) (start : Nat)
    (events : List (Nat × ReadEvent)) : Except Error (List Nat) :=
  readSingleLoop target_format
    { using_incr := false, incr_data := [], timeout_end := start + LONG_TIMEOUT_DUR }
    events

/-- The three per-selection stores of Inner (field data of struct
Selection for clipboard, primary and secondary). -/
structure Store where
  clipboard : Option (List ClipboardData)
  primary : Option (List ClipboardData)
  secondary : Option (List ClipboardData)
deriving DecidableEq, Repr

/-- Inner.selection_of restricted to the stored data. -/
def selection_of (store : Store) : LinuxClipboardKind → Option (List ClipboardData)
  | .Clipboard => store.clipboard
  | .Primary => store.primary
  | .Secondary => store.secondary

/-- Replace the stored data of one selection. -/
def storeSet (store : Store) (kind : LinuxClipboardKind)
    (data : Option (List ClipboardData)) : Store :=
  match kind with
  | .Clipboard => { store with clipboard := data }
  | .Primary => { store with primary := data }
  | .Secondary => { store with secondary := data }

/-- A request sent on the serving connection. Flushes are omitted: they
carry no payload. change_property32 writes a list of atoms,
change_property8 writes bytes, selNotify is the SelectionNotify sent by
send_event, setOwner is set_selection_owner (none models the NONE owner
of clear), convertSel is convert_selection. -/
inductive SentMsg where
  | changeProperty32 (requestor : Nat) (property : XAtom) (type_ : XAtom)
      (value : List XAtom)
  | changeProperty8 (requestor : Nat) (property : XAtom) (type_ : XAtom)
      (value : List Nat)
  | selNotify (requestor : Nat) (selection : XAtom) (target : XAtom)
      (property : XAtom)
  | setOwner (owner : Option Nat) (selection : XAtom)
  | convertSel (requestor : Nat) (selection : XAtom) (target : XAtom)
      (property : XAtom)
deriving DecidableEq, Repr

/-- A SelectionRequest event (the fields the handler reads). -/
structure SelRequestEv where
  selection : XAtom
  target : XAtom
  property : XAtom
  requestor : Nat
deriving DecidableEq, Repr

/-- The TARGETS loop of Inner.handle_selection_request: for each stored
payload push its format, after a UTF8_STRING format also push the two
UTF-8 MIME aliases, and flag exclusion when the KDE password manager hint
format is present. -/
def targetsAndExcluded : List ClipboardData → List XAtom × Bool
  | [] => ([], false)
  | d :: rest =>
    let tail := targetsAndExcluded rest
    let here :=
      d.format ::
        (if d.format = .UTF8_STRING then [.UTF8_MIME_0, .UTF8_MIME_1] else [])
    (here ++ tail.1, (d.format = .X_KDE_PASSWORDMANAGERHINT) || tail.2)

/-- The full TARGETS answer of Inner.handle_selection_request: the data
targets, then the TARGETS atom itself, then SAVE_TARGETS unless the
stored set carried the exclusion hint. -/
def targetsAnswer (stored : Option (List ClipboardData)) : List XAtom :=
  let pair :=
    match stored with
    | some dataList => targetsAndExcluded dataList
    | none => ([], false)
  pair.1 ++ [XAtom.TARGETS] ++ (if pair.2 then [] else [XAtom.SAVE_TARGETS])

/-- Inner.handle_selection_request as the list of requests it sends on the
serving connection. A request for an unrecognized selection atom is logged
and answered with nothing at all (the early return Ok). Otherwise a
TARGETS request is answered with the targets list, a content request with
the payload whose format equals the requested target when there is one,
and in every such case exactly one final SelectionNotify follows, whose
property is the destination property on success and NONE on failure. -/
def handle_selection_request (store : Store) (event : SelRequestEv) : List SentMsg :=
  match kind_of event.selection with
  | none => []
  | some kind =>
    if event.target = .TARGETS then
      let targets := targetsAnswer (selection_of store kind)
      [.changeProperty32 event.requestor event.property .ATOM targets,
       .selNotify event.requestor event.selection event.target event.property]
    else
      let found : Option ClipboardData :=
        match selection_of store kind with
        | some dataList => dataList.find? (fun d => d.format = event.target)
        | none => none
      match found with
      | some d =>
        [.changeProperty8 event.requestor event.property event.target d.bytes,
         .selNotify event.requestor event.selection event.target event.property]
      | none =>
        [.selNotify event.requestor event.selection event.target .NONE]

/-- The handover state machine (enum ManagerHandoverState). -/
inductive ManagerHandoverState where
  | Idle
  | InProgress
  | Finished
deriving DecidableEq, Repr

/-- Inner.ask_clipboard_manager_to_request_our_data up to the point where
it starts waiting on the condition variable: the requests it sends and the
handover state it leaves behind. The ownership probe is an input. The wait
itself and its timeout only affect logging, not the sent requests or the
handover state written by this function. -/
def ask_clipboard_manager_to_request_our_data (winId : Nat) (isOwner : Bool)
    (store : Store) (handover : ManagerHandoverState) :
    List SentMsg × ManagerHandoverState :=
  if winId = 0 then ([], handover)
  else if !isOwner then ([], handover)
  else
    match selection_of store .Clipboard with
    | some data =>
      if data.any (fun d => d.format = .X_KDE_PASSWORDMANAGERHINT) then
        -- the clear branch: relinquish ownership instead of the handoff
        ([.setOwner none (atom_of .Clipboard)], handover)
      else
        ([.convertSel winId .CLIPBOARD_MANAGER .SAVE_TARGETS .ARBOARD_CLIPBOARD],
         .InProgress)
    | none => ([], handover)

/-- The wait policy of a write (enum WaitConfig, deadline in
milliseconds). -/
inductive WaitConfig where
  | Until (deadline : Nat)
  | Forever
  | None
deriving DecidableEq, Repr

/-- One step of Inner.write, in execution order. storeUpdate is the
replacement of the stored data under the data write-lock, sendSetOwner the
set_selection_owner request, recordTime the update of the last-changed
instant, notifyAll the condition-variable broadcast, waitOnCv the optional
blocking wait of the Forever and Until policies. -/
inductive WriteAction where
  | storeUpdate (kind : LinuxClipboardKind) (data : List ClipboardData)
  | sendSetOwner (window : Nat) (selection : XAtom)
  | flush
  | recordTime
  | notifyAll
  | waitOnCv
deriving DecidableEq, Repr

/-- Inner.write. ownerOk tells whether the set_selection_owner request was
accepted by the connection; when it is refused the distinct
ClipboardOccupied error is returned. The returned triple is the result,
the store after the call, and the trace of the actions executed in
order. -/
def write (serveStopped : Bool) (serverWin : Nat) (ownerOk : Bool)
    (store : Store) (data : List ClipboardData) (kind : LinuxClipboardKind)
    (wait : WaitConfig) : Except Error Unit × Store × List WriteAction :=
  if serveStopped then
    (.error (.unknown "The clipboard handler thread seems to have stopped. Logging messages may reveal the cause. (See the `log` crate.)"),
     store, [])
  else
    let store2 := storeSet store kind (some data)
    let pre := [WriteAction.storeUpdate kind data,
                WriteAction.sendSetOwner serverWin (atom_of kind)]
    if !ownerOk then
      (.error .ClipboardOccupied, store2, pre)
    else
      let post :=
        match wait with
        | .None => []
        | .Forever => [WriteAction.waitOnCv]
        | .Until _ => [WriteAction.waitOnCv]
      (.ok (), store2,
       pre ++ [WriteAction.flush, WriteAction.recordTime, WriteAction.notifyAll]
           ++ post)

/-- An event delivered to the serve_requests loop. streamError stands for
wait_for_event returning an error, which makes the loop body propagate it
and exit. selectionNotifyFrom carries the selection field, the only field
the loop reads from a SelectionNotify. -/
inductive ServeEvent where
  | destroyNotify
  | selectionClear (selection : XAtom)
  | selectionRequest (e : SelRequestEv)
  | selectionNotifyFrom (selection : XAtom)
  | streamError
  | otherEvent
deriving DecidableEq, Repr

/-- The state threaded through the serve_requests loop: the shared stores,
the handover state, the two loop-local flags written and notified, the
serve_stopped flag of Inner, and the requests sent so far on the serving
connection. -/
structure ServeState where
  store : Store
  handover : ManagerHandoverState
  written : Bool
  notified : Bool
  serveStopped : Bool
  sent : List SentMsg
deriving DecidableEq, Repr

/-- One iteration of the serve_requests loop body for the events that do
not terminate the loop. SelectionClear clears the store of the named
selection and notifies waiters; SelectionRequest answers through
handle_selection_request and then, while a handover is InProgress and the
request was for actual contents (a non-TARGETS target), records written
and finishes when notified was already seen; SelectionNotify from the
CLIPBOARD_MANAGER selection while InProgress records notified and finishes
when written was already seen. -/
def serveStep (s : ServeState) (ev : ServeEvent) : ServeState :=
  match ev with
  | .destroyNotify => s
  | .streamError => s
  | .otherEvent => s
  | .selectionClear selection =>
    match kind_of selection with
    | some kind => { s with store := storeSet s.store kind none }
    | none => s
  | .selectionRequest e =>
    let s1 := { s with sent := s.sent ++ handle_selection_request s.store e }
    if s1.handover = .InProgress then
      if e.target ≠ .TARGETS then
        let s2 := { s1 with written := true }
        if s2.notified then { s2 with handover := .Finished } else s2
      else s1
    else s1
  | .selectionNotifyFrom selection =>
    if selection ≠ .CLIPBOARD_MANAGER then s
    else if s.handover = .InProgress then
      let s1 := { s with notified := true }
      if s1.written then { s1 with handover := .Finished } else s1
    else s

/-- The serve_requests loop over a finite event trace. It exits on a
DestroyNotify event (returning Ok) or on an event-stream error (the
question-mark propagation); in both cases the ScopeGuard installed at
entry stores true into serve_stopped on the way out. A trace that ends
before either exit leaves the loop still blocked in wait_for_event, which
is the none result. -/
def serveRun (s : ServeState) : List ServeEvent → Option ServeState
  | [] => none
  | ev :: rest =>
    match ev with
    | .destroyNotify => some { s with serveStopped := true }
    | .streamError => some { s with serveStopped := true }
    | _ => serveRun (serveStep s ev) rest

/-- Reads one UTF-8 scalar from its first byte and the following bytes:
the scalar value and the number of continuation bytes consumed. The
accepted byte ranges are exactly those the Rust standard library
validator behind String.from_utf8 enforces: ASCII bytes, two-byte
sequences with lead C2-DF, three-byte sequences with the E0/ED second-byte
restrictions that exclude overlong forms and surrogates, four-byte
sequences with the F0/F4 restrictions that exclude overlong forms and
values above 10FFFF, continuation bytes in 80-BF. -/
def utf8DecodeOne (b : Nat) (rest : List Nat) : Option (Nat × Nat) :=
  if b < 0x80 then some (b, 0)
  else if 0xC2 ≤ b ∧ b ≤ 0xDF then
    match rest with
    | b2 :: _ =>
      if 0x80 ≤ b2 ∧ b2 ≤ 0xBF then
        some ((b - 0xC0) * 64 + (b2 - 0x80), 1)
      else none
    | [] => none
  else if 0xE0 ≤ b ∧ b ≤ 0xEF then
    match rest with
    | b2 :: b3 :: _ =>
      if (if b = 0xE0 then 0xA0 else 0x80) ≤ b2 ∧
          b2 ≤ (if b = 0xED then 0x9F else 0xBF) ∧ 0x80 ≤ b3 ∧ b3 ≤ 0xBF then
        some ((b - 0xE0) * 4096 + (b2 - 0x80) * 64 + (b3 - 0x80), 2)
      else none
    | _ => none
  else if 0xF0 ≤ b ∧ b ≤ 0xF4 then
    match rest with
    | b2 :: b3 :: b4 :: _ =>
      if (if b = 0xF0 then 0x90 else 0x80) ≤ b2 ∧
          b2 ≤ (if b = 0xF4 then 0x8F else 0xBF) ∧ 0x80 ≤ b3 ∧ b3 ≤ 0xBF ∧
          0x80 ≤ b4 ∧ b4 ≤ 0xBF then
        some ((b - 0xF0) * 0x40000 + (b2 - 0x80) * 4096 + (b3 - 0x80) * 64
          + (b4 - 0x80), 3)
      else none
    | _ => none
  else none

/-- Byte-level UTF-8 decoding to unicode scalar values, modelling the Rust
standard library function String.from_utf8 used by get_text: scalars are
read one at a time until the input is exhausted; any rejected byte
sequence makes the whole decoding fail. -/
def utf8Decode : List Nat → Option (List Nat)
  | [] => some []
  | b :: rest =>
    match utf8DecodeOne b rest with
    | some (c, k) => (utf8Decode (rest.drop k)).map (fun tl => c :: tl)
    | none => none
termination_by bytes => bytes.length
decreasing_by
  simp only [List.length_drop, List.length_cons]
  omega

/-- A unicode scalar value: below 110000 hex and not a surrogate. -/
def validScalar (c : Nat) : Bool :=
  decide (c < 0x110000) && !(decide (0xD800 ≤ c) && decide (c ≤ 0xDFFF))

/-- The standard UTF-8 encoding of one unicode scalar value. -/
def utf8EncodeChar (c : Nat) : List Nat :=
  if c < 0x80 then [c]
  else if c < 0x800 then [0xC0 + c / 64, 0x80 + c % 64]
  else if c < 0x10000 then
    [0xE0 + c / 4096, 0x80 + c / 64 % 64, 0x80 + c % 64]
  else
    [0xF0 + c / 0x40000, 0x80 + c / 4096 % 64, 0x80 + c / 64 % 64, 0x80 + c % 64]

/-- The standard UTF-8 encoding of a sequence of scalar values. -/
def utf8Encode (s : List Nat) : List Nat := (s.map utf8EncodeChar).flatten

/-- A byte sequence is valid UTF-8 when it is the encoding of some
sequence of unicode scalar values. -/
def ValidUtf8 (bytes : List Nat) : Prop :=
  ∃ s, (∀ c ∈ s, validScalar c = true) ∧ utf8Encode s = bytes

/-- The format list Clipboard.get_text hands to Inner.read, in order. -/
def textFormats : List XAtom :=
  [.UTF8_STRING, .UTF8_MIME_0, .UTF8_MIME_1, .STRING, .TEXT, .TEXT_MIME_UNKNOWN]

/-- The decoding step of Clipboard.get_text on the ClipboardData returned
by Inner.read: the STRING format is ISO Latin-1 and every byte is mapped
to the char with the same code point (the Rust expression c as char);
every other format goes through String.from_utf8 and a failure becomes
ConversionFailure. Strings are modelled as lists of scalar values. -/
def get_text_decode (result : ClipboardData) : Except Error (List Nat) :=
  if result.format = .STRING then
    .ok (result.bytes.map (fun c => c))
  else
    match utf8Decode result.bytes with
    | some scalars => .ok scalars
    | none => .error .ConversionFailure

/-- Clipboard.get_text: read with the text format list, then decode. -/
def get_text (isOwner : Bool) (stored : Option (List ClipboardData))
    (attempt : XAtom → Except Error (List Nat)) : Except Error (List Nat) :=
  match read isOwner stored attempt textFormats with
  | .ok result => get_text_decode result
  | .error e => .error e

/-- The event trace of a synthetic INCR owner: the given chunks delivered
as PropertyNotify NEW_VALUE events on the destination property, one
millisecond apart, starting at instant t0. -/
def incrChunkTrace (t0 : Nat) : List (List Nat) → List (Nat × ReadEvent)
  | [] => []
  | c :: rest =>
    (t0, .propNotify { atom := .ARBOARD_CLIPBOARD, state := .NewValue, replyValue := c })
      :: incrChunkTrace (t0 + 1) rest

/-- Recognizes the SelectionNotify acknowledgment among sent requests. -/
def isSelNotifyMsg : SentMsg → Bool
  | .selNotify _ _ _ _ => true
  | _ => false

/-! ## Theorems -/

/-- C1: the claim says the owner branch of Inner.read returns the payload
of the earliest caller-requested format. The code evaluates the nested
loops with the stored list outermost, so with the store holding the HTML
payload before the UTF8_STRING payload, a read preferring UTF8_STRING over
HTML still returns the HTML payload, contradicting the claim (and the doc
comment of Inner.read). -/
theorem C1_read_local_returns_store_order :
    read true (some [{ bytes := [72], format := .HTML },
                     { bytes := [84], format := .UTF8_STRING }])
        (fun _ => .error .ContentNotAvailable) [.UTF8_STRING, .HTML]
      = .ok { bytes := [72], format := .HTML } ∧
    read true (some [{ bytes := [72], format := .HTML },
                     { bytes := [84], format := .UTF8_STRING }])
        (fun _ => .error .ContentNotAvailable) [.UTF8_STRING, .HTML]
      ≠ .ok { bytes := [84], format := .UTF8_STRING } := by
  constructor
  · rfl
  · intro h
    simp [read, firstStoredMatching, List.contains] at h

/-- C2: the claim says that when the INCR marker is answered the remaining
timeout is tightened to the short bound measured from that moment. The
code instead executes timeout_end += SHORT_TIMEOUT_DUR, extending the long
deadline by 10 ms: after the INCR answer at instant 0 the deadline is
4010, so a first segment arriving a full 3000 ms later, far beyond the
short bound, is still accepted and the read succeeds. -/
theorem C2_incr_timeout_not_tightened :
    read_single .UTF8_STRING 0
        [(0, .selNotify { property := .ARBOARD_CLIPBOARD, target := .UTF8_STRING,
                          selection := .CLIPBOARD, replyType := .INCR,
                          replyValue := [], incrMinLen := none }),
         (3000, .propNotify { atom := .ARBOARD_CLIPBOARD, state := .NewValue,
                              replyValue := [7, 7] }),
         (3001, .propNotify { atom := .ARBOARD_CLIPBOARD, state := .NewValue,
                              replyValue := [] })]
      = .ok [7, 7] ∧
    SHORT_TIMEOUT_DUR < 3000 := by
  constructor
  · rfl
  · decide

/-- C3 counterexample: a SelectionRequest naming a selection other than
CLIPBOARD, PRIMARY or SECONDARY is answered with no SelectionNotify at
all (the handler returns early), so the count of acknowledgments is not
one as the claim requires. -/
theorem C3_unrecognized_selection_not_acknowledged :
    ((handle_selection_request
        { clipboard := none, primary := none, secondary := none }
        { selection := .SAVE_TARGETS, target := .TARGETS,
          property := .ARBOARD_CLIPBOARD, requestor := 5 }).countP isSelNotifyMsg)
      ≠ 1 := by
  decide

/-- C3 (amended): for every SelectionRequest whose selection atom names
one of the three served selections, handle_selection_request sends exactly
one final SelectionNotify acknowledgment to the requestor, carrying the
destination property exactly when the request succeeded (a TARGETS
request, or a stored payload matching the requested target) and the NONE
property on failure. -/
theorem C3_selection_request_always_acknowledged (store : Store)
    (event : SelRequestEv) (kind : LinuxClipboardKind)
    (h : kind_of event.selection = some kind) :
    ∃ pre success,
      handle_selection_request store event
        = pre ++ [.selNotify event.requestor event.selection event.target
                    (if success then event.property else XAtom.NONE)] ∧
      pre.countP isSelNotifyMsg = 0 ∧
      (success = true ↔
        (event.target = .TARGETS ∨
          ∃ dataList, selection_of store kind = some dataList ∧
            ∃ d ∈ dataList, d.format = event.target)) := by
  unfold handle_selection_request
  rw [h]
  by_cases htgt : event.target = .TARGETS
  · refine ⟨[.changeProperty32 event.requestor event.property .ATOM
      (targetsAnswer (selection_of store kind))], true, ?_, ?_, ?_⟩
    · simp [htgt]
    · simp [List.countP, List.countP.go, isSelNotifyMsg]
    · simp [htgt]
  · simp only [if_neg htgt]
    rcases hsel : selection_of store kind with _ | dataList
    · refine ⟨[], false, ?_, ?_, ?_⟩
      · simp
      · simp [List.countP, List.countP.go]
      · simp [htgt, hsel]
    · rcases hfind : dataList.find? (fun d => d.format = event.target) with _ | d
      · refine ⟨[], false, ?_, ?_, ?_⟩
        · simp [hfind]
        · simp [List.countP, List.countP.go]
        · refine ⟨fun hfalse => absurd hfalse (by decide), fun hc => ?_⟩
          exfalso
          rcases hc with hc | ⟨dl, hdl, d, hd, hfmt⟩
          · exact htgt hc
          · cases hdl
            have := List.find?_eq_none.mp hfind d hd
            simp [hfmt] at this
      · refine ⟨[.changeProperty8 event.requestor event.property event.target d.bytes],
          true, ?_, ?_, ?_⟩
        · simp [hfind]
        · simp [List.countP, List.countP.go, isSelNotifyMsg]
        · simp only [true_iff]
          right
          exact ⟨dataList, rfl, d, List.mem_of_find?_eq_some hfind, by
            have := List.find?_some hfind
            simpa using this⟩

/-- The exclusion flag computed by the TARGETS loop is set exactly when a
stored payload carries the KDE password manager hint format. -/
theorem targetsAndExcluded_flag (l : List ClipboardData) :
    (targetsAndExcluded l).2 = true
      ↔ ∃ d ∈ l, d.format = .X_KDE_PASSWORDMANAGERHINT := by
  induction l with
  | nil => simp [targetsAndExcluded]
  | cons d rest ih =>
    simp only [targetsAndExcluded, Bool.or_eq_true, decide_eq_true_eq, ih,
      List.mem_cons]
    constructor
    · rintro (hfmt | ⟨d2, hd2, hfmt2⟩)
      · exact ⟨d, Or.inl rfl, hfmt⟩
      · exact ⟨d2, Or.inr hd2, hfmt2⟩
    · rintro ⟨d2, (rfl | hd2), hfmt2⟩
      · exact Or.inl hfmt2
      · exact Or.inr ⟨d2, hd2, hfmt2⟩

/-- Every atom in the data-targets list is the format of a stored payload
or one of the two UTF-8 MIME aliases. -/
theorem mem_targetsAndExcluded {l : List ClipboardData} {a : XAtom}
    (hmem : a ∈ (targetsAndExcluded l).1) :
    (∃ d ∈ l, d.format = a) ∨ a = .UTF8_MIME_0 ∨ a = .UTF8_MIME_1 := by
  induction l with
  | nil => simp [targetsAndExcluded] at hmem
  | cons d rest ih =>
    simp only [targetsAndExcluded, List.mem_append, List.mem_cons] at hmem
    rcases hmem with (rfl | halias) | htail
    · exact Or.inl ⟨d, List.mem_cons_self d rest, rfl⟩
    · by_cases h4 : d.format = XAtom.UTF8_STRING
      all_goals simp [h4] at halias
      rcases halias with rfl | rfl
      · exact Or.inr (Or.inl rfl)
      · exact Or.inr (Or.inr rfl)
    · rcases ih htail with ⟨d2, hd2, hfmt⟩ | hr
      · exact Or.inl ⟨d2, List.mem_cons_of_mem d hd2, hfmt⟩
      · exact Or.inr hr

/-- C4: when the stored Clipboard payload set carries the sensitivity
exclusion marker, (a) the TARGETS answer computed by
handle_selection_request omits the SAVE_TARGETS atom (the TARGETS branch
advertises exactly targetsAnswer), and (b) on last-handle teardown
ask_clipboard_manager_to_request_our_data relinquishes ownership with a
set_selection_owner NONE request instead of sending the SAVE_TARGETS
conversion request to the clipboard manager. -/
theorem C4_sensitive_data_never_handed_to_manager
    (store : Store) (dataList : List ClipboardData) (event : SelRequestEv)
    (winId : Nat) (handover : ManagerHandoverState)
    (hstore : store.clipboard = some dataList)
    (hhint : ∃ d ∈ dataList, d.format = .X_KDE_PASSWORDMANAGERHINT)
    (hnosave : ∀ d ∈ dataList, d.format ≠ .SAVE_TARGETS)
    (hwin : winId ≠ 0) :
    XAtom.SAVE_TARGETS ∉ targetsAnswer (selection_of store .Clipboard) ∧
    (event.selection = .CLIPBOARD → event.target = .TARGETS →
      handle_selection_request store event
        = [.changeProperty32 event.requestor event.property .ATOM
             (targetsAnswer (selection_of store .Clipboard)),
           .selNotify event.requestor event.selection event.target event.property]) ∧
    ask_clipboard_manager_to_request_our_data winId true store handover
      = ([.setOwner none .CLIPBOARD], handover) := by
  have hselof : selection_of store .Clipboard = some dataList := hstore
  have hexcl : (targetsAndExcluded dataList).2 = true :=
    (targetsAndExcluded_flag dataList).mpr hhint
  refine ⟨?_, ?_, ?_⟩
  · rw [hselof]
    unfold targetsAnswer
    simp only [hexcl, if_pos]
    intro hmem
    simp only [List.append_assoc, List.mem_append, List.mem_cons] at hmem
    rcases hmem with hdata | (habs | habs) | habs
    · rcases mem_targetsAndExcluded hdata with ⟨d, hd, hfmt⟩ | (h0 | h0)
      · exact hnosave d hd hfmt
      all_goals cases h0
    · cases habs
    all_goals cases habs
  · intro hsel htgt
    unfold handle_selection_request
    rw [hsel, htgt]
    simp [kind_of]
  · unfold ask_clipboard_manager_to_request_our_data
    rw [if_neg hwin]
    simp only [Bool.not_true, Bool.false_eq_true, if_false, hselof]
    have hany : dataList.any (fun d => d.format = .X_KDE_PASSWORDMANAGERHINT) = true := by
      rcases hhint with ⟨d, hd, hfmt⟩
      exact List.any_eq_true.mpr ⟨d, hd, by simp [hfmt]⟩
    simp [hany, atom_of]

/-- One loop iteration either leaves the handover state unchanged or
moves it from InProgress to Finished. -/
theorem serveStep_handover_cases (s : ServeState) (ev : ServeEvent) :
    (serveStep s ev).handover = s.handover ∨
      (s.handover = .InProgress ∧ (serveStep s ev).handover = .Finished) := by
  cases ev <;> simp only [serveStep] <;> repeat' split
  all_goals simp_all

/-- A loop iteration that ends with the handover Finished started from
Finished, or started from InProgress with both completion flags set at the
end of the iteration. -/
theorem serveStep_finished (s : ServeState) (ev : ServeEvent)
    (h : (serveStep s ev).handover = .Finished) :
    s.handover = .Finished ∨
      (s.handover = .InProgress ∧ (serveStep s ev).written = true ∧
        (serveStep s ev).notified = true) := by
  cases ev <;> simp only [serveStep] at h ⊢ <;> repeat' split at h
  all_goals simp_all

/-- The written flag is only raised by a content request (a non-TARGETS
SelectionRequest) observed while the handover is InProgress. -/
theorem serveStep_written (s : ServeState) (ev : ServeEvent)
    (h : (serveStep s ev).written = true) :
    s.written = true ∨
      (s.handover = .InProgress ∧
        ∃ e, ev = .selectionRequest e ∧ e.target ≠ .TARGETS) := by
  cases ev <;> simp only [serveStep] at h <;> repeat' split at h
  all_goals simp_all

/-- The notified flag is only raised by a SelectionNotify from the
CLIPBOARD_MANAGER selection observed while the handover is InProgress. -/
theorem serveStep_notified (s : ServeState) (ev : ServeEvent)
    (h : (serveStep s ev).notified = true) :
    s.notified = true ∨
      (s.handover = .InProgress ∧ ev = .selectionNotifyFrom .CLIPBOARD_MANAGER) := by
  cases ev <;> simp only [serveStep] at h <;> repeat' split at h
  all_goals simp_all

/-- Along any run of the loop that ends with the handover Finished, the
handover was already Finished at the start, or it was InProgress and the
run observed (or had already recorded) both a content request and a
manager notification. -/
theorem serveRun_finished_both_observed (events : List ServeEvent) :
    ∀ s s', serveRun s events = some s' → s'.handover = .Finished →
      s.handover = .Finished ∨
        (s.handover = .InProgress ∧
          (s.written = true ∨
            ∃ e, ServeEvent.selectionRequest e ∈ events ∧ e.target ≠ .TARGETS) ∧
          (s.notified = true ∨
            ServeEvent.selectionNotifyFrom .CLIPBOARD_MANAGER ∈ events)) := by
  induction events with
  | nil => intro s s' hrun; simp [serveRun] at hrun
  | cons ev rest ih =>
    intro s s' hrun hfin
    cases ev with
    | destroyNotify =>
      simp only [serveRun] at hrun
      cases hrun
      exact Or.inl hfin
    | streamError =>
      simp only [serveRun] at hrun
      cases hrun
      exact Or.inl hfin
    | selectionClear selection =>
      have hrun2 : serveRun (serveStep s (.selectionClear selection)) rest = some s' := hrun
      rcases ih _ _ hrun2 hfin with h1 | ⟨hip, hw, hn⟩
      · rcases serveStep_finished s _ h1 with h2 | ⟨hip2, hw2, hn2⟩
        · exact Or.inl h2
        · refine Or.inr ⟨hip2, ?_, ?_⟩
          · rcases serveStep_written s _ hw2 with h3 | ⟨_, e2, habs, _⟩
            · exact Or.inl h3
            · cases habs
          · rcases serveStep_notified s _ hn2 with h3 | ⟨_, habs⟩
            · exact Or.inl h3
            · cases habs
      · rcases serveStep_handover_cases s (.selectionClear selection) with hsame | ⟨_, hfin2⟩
        · rw [hsame] at hip
          refine Or.inr ⟨hip, ?_, ?_⟩
          · rcases hw with hw | ⟨e2, he2, ht2⟩
            · rcases serveStep_written s _ hw with h3 | ⟨_, e3, habs, _⟩
              · exact Or.inl h3
              · cases habs
            · exact Or.inr ⟨e2, List.mem_cons_of_mem _ he2, ht2⟩
          · rcases hn with hn | hn
            · rcases serveStep_notified s _ hn with h3 | ⟨_, habs⟩
              · exact Or.inl h3
              · cases habs
            · exact Or.inr (List.mem_cons_of_mem _ hn)
        · rw [hfin2] at hip
          cases hip
    | selectionRequest e =>
      have hrun2 : serveRun (serveStep s (.selectionRequest e)) rest = some s' := hrun
      rcases ih _ _ hrun2 hfin with h1 | ⟨hip, hw, hn⟩
      · rcases serveStep_finished s _ h1 with h2 | ⟨hip2, hw2, hn2⟩
        · exact Or.inl h2
        · refine Or.inr ⟨hip2, ?_, ?_⟩
          · rcases serveStep_written s _ hw2 with h3 | ⟨_, e2, he2, ht2⟩
            · exact Or.inl h3
            · injection he2 with h4
              subst h4
              exact Or.inr ⟨e, List.mem_cons_self _ _, ht2⟩
          · rcases serveStep_notified s _ hn2 with h3 | ⟨_, habs⟩
            · exact Or.inl h3
            · cases habs
      · rcases serveStep_handover_cases s (.selectionRequest e) with hsame | ⟨hip0, _⟩
        · rw [hsame] at hip
          refine Or.inr ⟨hip, ?_, ?_⟩
          · rcases hw with hw | ⟨e2, he2, ht2⟩
            · rcases serveStep_written s _ hw with h3 | ⟨_, e3, he3, ht3⟩
              · exact Or.inl h3
              · injection he3 with h4
                subst h4
                exact Or.inr ⟨e, List.mem_cons_self _ _, ht3⟩
            · exact Or.inr ⟨e2, List.mem_cons_of_mem _ he2, ht2⟩
          · rcases hn with hn | hn
            · rcases serveStep_notified s _ hn with h3 | ⟨_, habs⟩
              · exact Or.inl h3
              · cases habs
            · exact Or.inr (List.mem_cons_of_mem _ hn)
        · refine Or.inr ⟨hip0, ?_, ?_⟩
          · rcases hw with hw | ⟨e2, he2, ht2⟩
            · rcases serveStep_written s _ hw with h3 | ⟨_, e3, he3, ht3⟩
              · exact Or.inl h3
              · injection he3 with h4
                subst h4
                exact Or.inr ⟨e, List.mem_cons_self _ _, ht3⟩
            · exact Or.inr ⟨e2, List.mem_cons_of_mem _ he2, ht2⟩
          · rcases hn with hn | hn
            · rcases serveStep_notified s _ hn with h3 | ⟨_, habs⟩
              · exact Or.inl h3
              · cases habs
            · exact Or.inr (List.mem_cons_of_mem _ hn)
    | selectionNotifyFrom selection =>
      have hrun2 : serveRun (serveStep s (.selectionNotifyFrom selection)) rest = some s' := hrun
      rcases ih _ _ hrun2 hfin with h1 | ⟨hip, hw, hn⟩
      · rcases serveStep_finished s _ h1 with h2 | ⟨hip2, hw2, hn2⟩
        · exact Or.inl h2
        · refine Or.inr ⟨hip2, ?_, ?_⟩
          · rcases serveStep_written s _ hw2 with h3 | ⟨_, e2, habs, _⟩
            · exact Or.inl h3
            · cases habs
          · rcases serveStep_notified s _ hn2 with h3 | ⟨_, hsel⟩
            · exact Or.inl h3
            · cases hsel
              exact Or.inr (List.mem_cons_self _ _)
      · rcases serveStep_handover_cases s (.selectionNotifyFrom selection) with hsame | ⟨hip0, _⟩
        · rw [hsame] at hip
          refine Or.inr ⟨hip, ?_, ?_⟩
          · rcases hw with hw | ⟨e2, he2, ht2⟩
            · rcases serveStep_written s _ hw with h3 | ⟨_, e3, habs, _⟩
              · exact Or.inl h3
              · cases habs
            · exact Or.inr ⟨e2, List.mem_cons_of_mem _ he2, ht2⟩
          · rcases hn with hn | hn
            · rcases serveStep_notified s _ hn with h3 | ⟨_, hsel⟩
              · exact Or.inl h3
              · cases hsel
                exact Or.inr (List.mem_cons_self _ _)
            · exact Or.inr (List.mem_cons_of_mem _ hn)
        · refine Or.inr ⟨hip0, ?_, ?_⟩
          · rcases hw with hw | ⟨e2, he2, ht2⟩
            · rcases serveStep_written s _ hw with h3 | ⟨_, e3, habs, _⟩
              · exact Or.inl h3
              · cases habs
            · exact Or.inr ⟨e2, List.mem_cons_of_mem _ he2, ht2⟩
          · rcases hn with hn | hn
            · rcases serveStep_notified s _ hn with h3 | ⟨_, hsel⟩
              · exact Or.inl h3
              · cases hsel
                exact Or.inr (List.mem_cons_self _ _)
            · exact Or.inr (List.mem_cons_of_mem _ hn)
    | otherEvent =>
      have hrun2 : serveRun (serveStep s .otherEvent) rest = some s' := hrun
      rcases ih _ _ hrun2 hfin with h1 | ⟨hip, hw, hn⟩
      · rcases serveStep_finished s _ h1 with h2 | ⟨hip2, hw2, hn2⟩
        · exact Or.inl h2
        · refine Or.inr ⟨hip2, ?_, ?_⟩
          · rcases serveStep_written s _ hw2 with h3 | ⟨_, e2, habs, _⟩
            · exact Or.inl h3
            · cases habs
          · rcases serveStep_notified s _ hn2 with h3 | ⟨_, habs⟩
            · exact Or.inl h3
            · cases habs
      · rcases serveStep_handover_cases s .otherEvent with hsame | ⟨_, hfin2⟩
        · rw [hsame] at hip
          refine Or.inr ⟨hip, ?_, ?_⟩
          · rcases hw with hw | ⟨e2, he2, ht2⟩
            · rcases serveStep_written s _ hw with h3 | ⟨_, e3, habs, _⟩
              · exact Or.inl h3
              · cases habs
            · exact Or.inr ⟨e2, List.mem_cons_of_mem _ he2, ht2⟩
          · rcases hn with hn | hn
            · rcases serveStep_notified s _ hn with h3 | ⟨_, habs⟩
              · exact Or.inl h3
              · cases habs
            · exact Or.inr (List.mem_cons_of_mem _ hn)
        · rw [hfin2] at hip
          cases hip

/-- C5: the handover moves from InProgress to Finished only once both
sub-conditions have been observed. In one loop iteration a transition to
Finished requires the state to have been InProgress with both flags set
at the end of the iteration; over a whole run every transition to
Finished is preceded by the observation of a content request (a
non-TARGETS SelectionRequest while InProgress) and of a manager
notification (a SelectionNotify from CLIPBOARD_MANAGER while InProgress);
and the two observations reach Finished in either arrival order. -/
theorem C5_handover_finishes_after_both_in_any_order (s : ServeState)
    (ev : ServeEvent) (e : SelRequestEv) (events : List ServeEvent)
    (s' : ServeState) :
    ((serveStep s ev).handover = .Finished →
      s.handover = .Finished ∨
        (s.handover = .InProgress ∧ (serveStep s ev).written = true ∧
          (serveStep s ev).notified = true)) ∧
    (serveRun s events = some s' → s'.handover = .Finished →
      s.handover = .Finished ∨
        (s.handover = .InProgress ∧
          (s.written = true ∨
            ∃ e2, ServeEvent.selectionRequest e2 ∈ events ∧ e2.target ≠ .TARGETS) ∧
          (s.notified = true ∨
            ServeEvent.selectionNotifyFrom .CLIPBOARD_MANAGER ∈ events))) ∧
    (s.handover = .InProgress → e.target ≠ .TARGETS →
      (serveStep (serveStep s (.selectionRequest e))
          (.selectionNotifyFrom .CLIPBOARD_MANAGER)).handover = .Finished ∧
      (serveStep (serveStep s (.selectionNotifyFrom .CLIPBOARD_MANAGER))
          (.selectionRequest e)).handover = .Finished) := by
  refine ⟨serveStep_finished s ev, serveRun_finished_both_observed events s s', ?_⟩
  intro hip htgt
  constructor
  · simp only [serveStep]
    repeat' split
    all_goals simp_all
  · simp only [serveStep]
    repeat' split
    all_goals simp_all

/-- C7: the non-owner read tries each requested format in order. The empty
list yields ContentNotAvailable; a successful attempt on the head format
returns its bytes tagged with that format; a head attempt failing with
ContentNotAvailable is skipped and the rest of the list decides; any other
head error aborts the read with that error; and when every requested
format reports ContentNotAvailable the read reports ContentNotAvailable.
The non-owner branch of Inner.read is exactly this traversal. -/
theorem C7_read_tries_formats_in_order
    (attempt : XAtom → Except Error (List Nat)) (stored : Option (List ClipboardData))
    (f : XAtom) (rest : List XAtom) (formats : List XAtom) :
    (read false stored attempt formats = readRemote attempt formats) ∧
    (readRemote attempt [] = .error .ContentNotAvailable) ∧
    (∀ bytes, attempt f = .ok bytes →
      readRemote attempt (f :: rest) = .ok { bytes := bytes, format := f }) ∧
    (attempt f = .error .ContentNotAvailable →
      readRemote attempt (f :: rest) = readRemote attempt rest) ∧
    (∀ e, attempt f = .error e → e ≠ .ContentNotAvailable →
      readRemote attempt (f :: rest) = .error e) ∧
    ((∀ g ∈ formats, attempt g = .error .ContentNotAvailable) →
      readRemote attempt formats = .error .ContentNotAvailable) := by
  refine ⟨rfl, rfl, ?_, ?_, ?_, ?_⟩
  · intro bytes hok
    simp [readRemote, hok]
  · intro hcna
    simp [readRemote, hcna]
  · intro e herr hne
    simp [readRemote, herr, hne]
  · intro hall
    induction formats with
    | nil => rfl
    | cons g rest2 ih =>
      have hg := hall g (List.mem_cons_self _ _)
      have hrest : ∀ g2 ∈ rest2, attempt g2 = .error .ContentNotAvailable :=
        fun g2 hg2 => hall g2 (List.mem_cons_of_mem _ hg2)
      simp [readRemote, hg, ih hrest]

/-- C8: while the serving thread is running, Inner.write replaces the
stored data of the selection strictly before issuing the
set_selection_owner request (the action trace starts with the store update
followed by the ownership assertion), the store afterwards holds exactly
the new payload set, and a refused ownership assertion surfaces as the
distinct ClipboardOccupied error. -/
theorem C8_write_stores_before_asserting_ownership (serverWin : Nat)
    (ownerOk : Bool) (store : Store) (data : List ClipboardData)
    (kind : LinuxClipboardKind) (wait : WaitConfig) :
    (∃ restActions,
      (write false serverWin ownerOk store data kind wait).2.2
        = WriteAction.storeUpdate kind data
            :: WriteAction.sendSetOwner serverWin (atom_of kind) :: restActions) ∧
    (write false serverWin ownerOk store data kind wait).2.1
      = storeSet store kind (some data) ∧
    (ownerOk = false →
      (write false serverWin ownerOk store data kind wait).1
        = .error .ClipboardOccupied) := by
  cases ownerOk
  · exact ⟨⟨[], rfl⟩, rfl, fun _ => rfl⟩
  · refine ⟨⟨[WriteAction.flush, WriteAction.recordTime, WriteAction.notifyAll]
      ++ (match wait with
          | .None => []
          | .Forever => [WriteAction.waitOnCv]
          | .Until _ => [WriteAction.waitOnCv]), ?_⟩, rfl, fun h => by cases h⟩
    cases wait <;> rfl

/-- C9: whenever the serve loop exits, for any reason (window destruction
or an event-stream error), the scope guard stores true into the stopped
flag; and a write that finds the stopped flag set returns an explicit
error immediately: the store is untouched and the action trace is empty,
so nothing is stored and no wait is entered. -/
theorem C9_stopped_loop_fails_writes (s : ServeState)
    (events : List ServeEvent) (s' : ServeState) (serverWin : Nat)
    (ownerOk : Bool) (store : Store) (data : List ClipboardData)
    (kind : LinuxClipboardKind) (wait : WaitConfig) :
    (serveRun s events = some s' → s'.serveStopped = true) ∧
    (∃ description,
      write true serverWin ownerOk store data kind wait
        = (.error (.unknown description), store, [])) := by
  constructor
  · induction events generalizing s with
    | nil => intro h; cases h
    | cons ev rest ih =>
      intro h
      cases ev
      case destroyNotify => cases h; rfl
      case streamError => cases h; rfl
      all_goals exact ih _ h
  · exact ⟨_, rfl⟩

/-- Running the polling loop in segmented mode over a chunk trace whose
non-final chunks are non-empty and whose final chunk is empty returns the
accumulator extended with the concatenation of the non-final chunks. -/
theorem readSingleLoop_chunk_run (target : XAtom) (cs : List (List Nat)) :
    ∀ (acc : List Nat) (t0 T : Nat), (∀ c ∈ cs, c ≠ []) → t0 < T →
      readSingleLoop target
          { using_incr := true, incr_data := acc, timeout_end := T }
          (incrChunkTrace t0 (cs ++ [[]]))
        = .ok (acc ++ cs.flatten) := by
  induction cs with
  | nil =>
    intro acc t0 T _ ht
    simp [incrChunkTrace, readSingleLoop, handle_read_property_notify,
      Nat.not_le.mpr ht]
  | cons c cs ih =>
    intro acc t0 T hne ht
    have hc : c ≠ [] := hne c (List.mem_cons_self _ _)
    have hrec := ih (acc ++ c) (t0 + 1) (t0 + SHORT_TIMEOUT_DUR)
      (fun c2 hc2 => hne c2 (List.mem_cons_of_mem _ hc2))
      (by unfold SHORT_TIMEOUT_DUR; omega)
    simp only [List.cons_append, incrChunkTrace, readSingleLoop,
      handle_read_property_notify, Nat.not_le.mpr ht, if_false, hc]
    simp only [List.length_eq_zero, hc, if_false, if_neg (Nat.not_le.mpr ht)]
    simp [hrec, List.append_assoc]

/-- C6: an INCR transfer delivering the chunks cs followed by a final
zero-length chunk is reassembled into exactly the concatenation of the
chunks of cs in arrival order; the per-chunk handler appends every
non-empty chunk to the accumulator unchanged and reports completion
exactly on a zero-length chunk. -/
theorem C6_incr_chunks_reassembled_in_order (cs : List (List Nat))
    (t0 T now : Nat) (acc chunk : List Nat)
    (hne : ∀ c ∈ cs, c ≠ []) (ht : t0 < T) :
    (readSingleLoop .UTF8_STRING
        { using_incr := true, incr_data := [], timeout_end := T }
        (incrChunkTrace t0 (cs ++ [[]]))
      = .ok cs.flatten) ∧
    ((handle_read_property_notify true acc now
        { atom := .ARBOARD_CLIPBOARD, state := .NewValue,
          replyValue := chunk }).done = true ↔ chunk = []) ∧
    (chunk ≠ [] →
      (handle_read_property_notify true acc now
          { atom := .ARBOARD_CLIPBOARD, state := .NewValue,
            replyValue := chunk }).incr_data = acc ++ chunk) := by
  refine ⟨?_, ?_, ?_⟩
  · have h := readSingleLoop_chunk_run .UTF8_STRING cs [] t0 T hne ht
    simpa using h
  · by_cases hz : chunk = []
    · simp [handle_read_property_notify, hz]
    · simp [handle_read_property_notify, hz, List.length_eq_zero]
  · intro hz
    simp [handle_read_property_notify, hz, List.length_eq_zero]


theorem validScalar_iff (c : Nat) :
    validScalar c = true ↔ (c < 0x110000 ∧ ¬(0xD800 ≤ c ∧ c ≤ 0xDFFF)) := by
  simp [validScalar]
  omega

theorem utf8Encode_cons (c : Nat) (s : List Nat) :
    utf8Encode (c :: s) = utf8EncodeChar c ++ utf8Encode s := by
  simp [utf8Encode]

theorem utf8Decode_nil : utf8Decode [] = some [] := by
  rw [utf8Decode]

theorem utf8Decode_cons (b : Nat) (rest : List Nat) :
    utf8Decode (b :: rest)
      = match utf8DecodeOne b rest with
        | some (c, k) => (utf8Decode (rest.drop k)).map (fun tl => c :: tl)
        | none => none := by
  rw [utf8Decode]

set_option maxRecDepth 8192 in
/-- Soundness of the single-scalar reader: an accepted scalar is a valid
unicode scalar whose standard encoding is exactly the bytes consumed. -/
theorem utf8DecodeOne_sound {b : Nat} {rest : List Nat} {c k : Nat}
    (hone : utf8DecodeOne b rest = some (c, k)) :
    validScalar c = true ∧ utf8EncodeChar c = b :: rest.take k ∧
      k ≤ rest.length := by
  unfold utf8DecodeOne at hone
  by_cases h1 : b < 0x80
  · rw [if_pos h1] at hone
    cases hone
    refine ⟨by rw [validScalar_iff]; omega, ?_, by omega⟩
    rw [utf8EncodeChar, if_pos h1]
    simp
  · rw [if_neg h1] at hone
    by_cases h2 : 0xC2 ≤ b ∧ b ≤ 0xDF
    · rw [if_pos h2] at hone
      cases rest with
      | nil => simp at hone
      | cons b2 rest2 =>
        dsimp only at hone
        split_ifs at hone
        all_goals cases hone
        all_goals refine ⟨by rw [validScalar_iff]; omega, ?_, by simp⟩
        all_goals rw [utf8EncodeChar, if_neg (by omega), if_pos (by omega),
          show List.take 1 (b2 :: rest2) = [b2] from rfl]
        all_goals simp only [List.cons.injEq, and_true]
        all_goals exact ⟨by omega, by omega⟩
    · rw [if_neg h2] at hone
      by_cases h3 : 0xE0 ≤ b ∧ b ≤ 0xEF
      · rw [if_pos h3] at hone
        cases rest with
        | nil => simp at hone
        | cons b2 rest2 =>
          cases rest2 with
          | nil => simp at hone
          | cons b3 rest3 =>
            dsimp only at hone
            split_ifs at hone
            all_goals cases hone
            all_goals refine ⟨by rw [validScalar_iff]; omega, ?_, by simp⟩
            all_goals rw [utf8EncodeChar, if_neg (by omega), if_neg (by omega),
              if_pos (by omega),
              show List.take 2 (b2 :: b3 :: rest3) = [b2, b3] from rfl]
            all_goals simp only [List.cons.injEq, and_true]
            all_goals exact ⟨by omega, by omega, by omega⟩
      · rw [if_neg h3] at hone
        by_cases h4 : 0xF0 ≤ b ∧ b ≤ 0xF4
        · rw [if_pos h4] at hone
          cases rest with
          | nil => simp at hone
          | cons b2 rest2 =>
            cases rest2 with
            | nil => simp at hone
            | cons b3 rest3 =>
              cases rest3 with
              | nil => simp at hone
              | cons b4 rest4 =>
                dsimp only at hone
                split_ifs at hone
                all_goals cases hone
                all_goals refine ⟨by rw [validScalar_iff]; omega, ?_, by simp⟩
                all_goals rw [utf8EncodeChar, if_neg (by omega),
                  if_neg (by omega), if_neg (by omega),
                  show List.take 3 (b2 :: b3 :: b4 :: rest4) = [b2, b3, b4]
                    from rfl]
                all_goals simp only [List.cons.injEq, and_true]
                all_goals exact ⟨by omega, by omega, by omega, by omega⟩
        · rw [if_neg h4] at hone
          cases hone


set_option maxRecDepth 8192 in
/-- Completeness of the single-scalar reader: the standard encoding of a
valid unicode scalar is read back as that scalar, whatever bytes follow. -/
theorem utf8DecodeOne_complete {c : Nat} (hval : validScalar c = true) :
    ∃ b tail, utf8EncodeChar c = b :: tail ∧
      ∀ extra, utf8DecodeOne b (tail ++ extra) = some (c, tail.length) := by
  rw [validScalar_iff] at hval
  by_cases h1 : c < 0x80
  · refine ⟨c, [], by rw [utf8EncodeChar, if_pos h1], fun extra => ?_⟩
    unfold utf8DecodeOne
    rw [if_pos h1]
    rfl
  · by_cases h2 : c < 0x800
    · refine ⟨0xC0 + c / 64, [0x80 + c % 64],
        by rw [utf8EncodeChar, if_neg h1, if_pos h2], fun extra => ?_⟩
      unfold utf8DecodeOne
      rw [if_neg (by omega), if_pos (by omega)]
      simp only [List.cons_append, List.nil_append]
      rw [if_pos (by omega)]
      simp only [Option.some.injEq, Prod.mk.injEq]
      exact ⟨by omega, by simp⟩
    · by_cases h3 : c < 0x10000
      · refine ⟨0xE0 + c / 4096, [0x80 + c / 64 % 64, 0x80 + c % 64],
          by rw [utf8EncodeChar, if_neg h1, if_neg h2, if_pos h3],
          fun extra => ?_⟩
        unfold utf8DecodeOne
        rw [if_neg (by omega), if_neg (by omega), if_pos (by omega)]
        simp only [List.cons_append, List.nil_append]
        rw [if_pos (by
          refine ⟨?_, ?_, by omega, by omega⟩
          · split_ifs with hb <;> omega
          · split_ifs with hb <;> omega)]
        simp only [Option.some.injEq, Prod.mk.injEq]
        exact ⟨by omega, by simp⟩
      · refine ⟨0xF0 + c / 0x40000,
          [0x80 + c / 4096 % 64, 0x80 + c / 64 % 64, 0x80 + c % 64],
          by rw [utf8EncodeChar, if_neg h1, if_neg h2, if_neg h3],
          fun extra => ?_⟩
        unfold utf8DecodeOne
        rw [if_neg (by omega), if_neg (by omega), if_neg (by omega),
          if_pos (by omega)]
        simp only [List.cons_append, List.nil_append]
        rw [if_pos (by
          refine ⟨?_, ?_, by omega, by omega, by omega, by omega⟩
          · split_ifs with hb <;> omega
          · split_ifs with hb <;> omega)]
        simp only [Option.some.injEq, Prod.mk.injEq]
        exact ⟨by omega, by simp⟩


/-- Decoding is left-inverse to encoding on valid scalar sequences. -/
theorem utf8Decode_utf8Encode (ss : List Nat)
    (h : ∀ c ∈ ss, validScalar c = true) :
    utf8Decode (utf8Encode ss) = some ss := by
  induction ss with
  | nil => rw [show utf8Encode [] = [] from rfl, utf8Decode_nil]
  | cons c ss ih =>
    rcases utf8DecodeOne_complete (h c (List.mem_cons_self _ _)) with
      ⟨b, tail, hchar, hone⟩
    rw [utf8Encode_cons, hchar, List.cons_append, utf8Decode_cons,
      hone (utf8Encode ss)]
    dsimp only
    rw [List.drop_left, ih (fun c2 h2 => h c2 (List.mem_cons_of_mem _ h2))]
    rfl

/-- A successfully decoded byte sequence is the encoding of the decoded
scalars, and those scalars are valid. -/
theorem utf8Encode_utf8Decode : ∀ (bytes : List Nat) ss,
    utf8Decode bytes = some ss →
    (∀ c ∈ ss, validScalar c = true) ∧ utf8Encode ss = bytes := by
  intro bytes
  induction bytes using utf8Decode.induct with
  | case1 =>
    intro ss h
    rw [utf8Decode_nil] at h
    cases h
    exact ⟨by simp, rfl⟩
  | case2 b rest c k hone ih =>
    intro ss h
    rw [utf8Decode_cons, hone] at h
    dsimp only at h
    rcases Option.map_eq_some'.mp h with ⟨tl, htl, rfl⟩
    rcases ih tl htl with ⟨hvalid, henc⟩
    rcases utf8DecodeOne_sound hone with ⟨hval, hchar, hk⟩
    refine ⟨?_, ?_⟩
    · intro c2 hc2
      rcases List.mem_cons.mp hc2 with rfl | hc3
      · exact hval
      · exact hvalid c2 hc3
    · rw [utf8Encode_cons, henc, hchar, List.cons_append,
        List.take_append_drop]
  | case3 b rest hnone =>
    intro ss h
    rw [utf8Decode_cons, hnone] at h
    cases h


/-- C10: get_text decodes the fetched bytes according to the answered
format. For the Latin-1 STRING format every byte becomes the scalar with
the same value (the Rust expression c as char), so the decode is total
and never fails; for every other format the decode goes through UTF-8
validation and returns ConversionFailure exactly when the bytes are not
valid UTF-8, that is, not the encoding of any sequence of unicode
scalars; a successful UTF-8 decode yields valid scalars whose standard
encoding is exactly the fetched bytes. -/
theorem C10_get_text_decodes_by_format (bytes : List Nat) (format : XAtom)
    (hfmt : format ≠ .STRING) :
    (get_text_decode { bytes := bytes, format := .STRING } = .ok bytes) ∧
    (get_text_decode { bytes := bytes, format := format }
        = .error .ConversionFailure ↔ ¬ ValidUtf8 bytes) ∧
    (∀ scalars,
      get_text_decode { bytes := bytes, format := format } = .ok scalars →
        (∀ c ∈ scalars, validScalar c = true) ∧ utf8Encode scalars = bytes) := by
  refine ⟨?_, ?_, ?_⟩
  · simp [get_text_decode]
  · unfold get_text_decode
    rw [if_neg hfmt]
    rcases hdec : utf8Decode bytes with _ | ss
    · constructor
      · intro _
        rintro ⟨ss, hv, henc⟩
        rw [← henc, utf8Decode_utf8Encode ss hv] at hdec
        cases hdec
      · intro _
        rfl
    · constructor
      · intro habs
        dsimp only at habs
        cases habs
      · intro hnv
        exact (hnv ⟨ss, (utf8Encode_utf8Decode bytes ss hdec).1,
          (utf8Encode_utf8Decode bytes ss hdec).2⟩).elim
  · intro scalars hok
    unfold get_text_decode at hok
    rw [if_neg hfmt] at hok
    rcases hdec : utf8Decode bytes with _ | ss
    · rw [hdec] at hok
      cases hok
    · rw [hdec] at hok
      cases hok
      exact utf8Encode_utf8Decode bytes scalars hdec

/-- Witness for C3 at a concrete TARGETS request on the CLIPBOARD
selection of an empty store. -/
theorem C3_selection_request_always_acknowledged_witness :
    kind_of XAtom.CLIPBOARD = some LinuxClipboardKind.Clipboard ∧
    ∃ pre success,
      handle_selection_request
          { clipboard := none, primary := none, secondary := none }
          { selection := .CLIPBOARD, target := .TARGETS,
            property := .ARBOARD_CLIPBOARD, requestor := 7 }
        = pre ++ [.selNotify 7 .CLIPBOARD .TARGETS
                    (if success then XAtom.ARBOARD_CLIPBOARD else XAtom.NONE)] ∧
      pre.countP isSelNotifyMsg = 0 ∧
      (success = true ↔
        (XAtom.TARGETS = XAtom.TARGETS ∨
          ∃ dataList,
            selection_of { clipboard := none, primary := none, secondary := none }
              LinuxClipboardKind.Clipboard = some dataList ∧
            ∃ d ∈ dataList, d.format = XAtom.TARGETS)) :=
  ⟨rfl, C3_selection_request_always_acknowledged
    { clipboard := none, primary := none, secondary := none }
    { selection := .CLIPBOARD, target := .TARGETS,
      property := .ARBOARD_CLIPBOARD, requestor := 7 }
    LinuxClipboardKind.Clipboard rfl⟩

/-- Witness for C4 at a store whose Clipboard payload carries only the
exclusion hint. -/
theorem C4_sensitive_data_never_handed_to_manager_witness :
    XAtom.SAVE_TARGETS ∉
      targetsAnswer (selection_of
        { clipboard := some [{ bytes := [1], format := .X_KDE_PASSWORDMANAGERHINT }],
          primary := none, secondary := none } .Clipboard) ∧
    (XAtom.CLIPBOARD = XAtom.CLIPBOARD → XAtom.TARGETS = XAtom.TARGETS →
      handle_selection_request
          { clipboard := some [{ bytes := [1], format := .X_KDE_PASSWORDMANAGERHINT }],
            primary := none, secondary := none }
          { selection := .CLIPBOARD, target := .TARGETS,
            property := .ARBOARD_CLIPBOARD, requestor := 9 }
        = [.changeProperty32 9 .ARBOARD_CLIPBOARD .ATOM
             (targetsAnswer (selection_of
               { clipboard := some [{ bytes := [1], format := .X_KDE_PASSWORDMANAGERHINT }],
                 primary := none, secondary := none } .Clipboard)),
           .selNotify 9 .CLIPBOARD .TARGETS .ARBOARD_CLIPBOARD]) ∧
    ask_clipboard_manager_to_request_our_data 5 true
        { clipboard := some [{ bytes := [1], format := .X_KDE_PASSWORDMANAGERHINT }],
          primary := none, secondary := none } .Idle
      = ([.setOwner none .CLIPBOARD], .Idle) :=
  C4_sensitive_data_never_handed_to_manager
    { clipboard := some [{ bytes := [1], format := .X_KDE_PASSWORDMANAGERHINT }],
      primary := none, secondary := none }
    [{ bytes := [1], format := .X_KDE_PASSWORDMANAGERHINT }]
    { selection := .CLIPBOARD, target := .TARGETS,
      property := .ARBOARD_CLIPBOARD, requestor := 9 }
    5 .Idle rfl (by decide) (by decide) (by decide)

/-- Witness for C5: from a fresh InProgress state, a content request and a
manager notification drive the handover to Finished in both orders. -/
theorem C5_handover_finishes_after_both_in_any_order_witness :
    ({ store := { clipboard := none, primary := none, secondary := none },
       handover := .InProgress, written := false, notified := false,
       serveStopped := false, sent := [] } : ServeState).handover
        = .InProgress ∧
    ({ selection := XAtom.CLIPBOARD, target := XAtom.UTF8_STRING,
       property := XAtom.ARBOARD_CLIPBOARD, requestor := 3 } : SelRequestEv).target
        ≠ XAtom.TARGETS ∧
    ((serveStep (serveStep
        { store := { clipboard := none, primary := none, secondary := none },
          handover := .InProgress, written := false, notified := false,
          serveStopped := false, sent := [] }
        (.selectionRequest { selection := .CLIPBOARD, target := .UTF8_STRING,
                             property := .ARBOARD_CLIPBOARD, requestor := 3 }))
        (.selectionNotifyFrom .CLIPBOARD_MANAGER)).handover = .Finished ∧
      (serveStep (serveStep
        { store := { clipboard := none, primary := none, secondary := none },
          handover := .InProgress, written := false, notified := false,
          serveStopped := false, sent := [] }
        (.selectionNotifyFrom .CLIPBOARD_MANAGER))
        (.selectionRequest { selection := .CLIPBOARD, target := .UTF8_STRING,
                             property := .ARBOARD_CLIPBOARD, requestor := 3 })).handover
        = .Finished) :=
  ⟨rfl, by decide,
    (C5_handover_finishes_after_both_in_any_order
      { store := { clipboard := none, primary := none, secondary := none },
        handover := .InProgress, written := false, notified := false,
        serveStopped := false, sent := [] }
      .otherEvent
      { selection := .CLIPBOARD, target := .UTF8_STRING,
        property := .ARBOARD_CLIPBOARD, requestor := 3 }
      []
      { store := { clipboard := none, primary := none, secondary := none },
        handover := .InProgress, written := false, notified := false,
        serveStopped := false, sent := [] }).2.2 rfl (by decide)⟩

/-- Witness for C6 on a two-chunk INCR transfer. -/
theorem C6_incr_chunks_reassembled_in_order_witness :
    (∀ c ∈ ([[1], [2]] : List (List Nat)), c ≠ []) ∧ 0 < 4000 ∧
    ((readSingleLoop .UTF8_STRING
        { using_incr := true, incr_data := [], timeout_end := 4000 }
        (incrChunkTrace 0 (([[1], [2]] : List (List Nat)) ++ [[]]))
      = .ok ([[1], [2]] : List (List Nat)).flatten) ∧
    ((handle_read_property_notify true [9] 5
        { atom := .ARBOARD_CLIPBOARD, state := .NewValue,
          replyValue := [3] }).done = true ↔ ([3] : List Nat) = []) ∧
    (([3] : List Nat) ≠ [] →
      (handle_read_property_notify true [9] 5
          { atom := .ARBOARD_CLIPBOARD, state := .NewValue,
            replyValue := [3] }).incr_data = [9] ++ [3])) :=
  ⟨by decide, by decide,
    C6_incr_chunks_reassembled_in_order [[1], [2]] 0 4000 5 [9] [3]
      (by decide) (by decide)⟩

/-- Witness for C7 with an owner that answers ContentNotAvailable for
every format. -/
theorem C7_read_tries_formats_in_order_witness :
    read false none (fun _ => .error .ContentNotAvailable) []
      = readRemote (fun _ => .error .ContentNotAvailable) [] ∧
    readRemote (fun _ => .error .ContentNotAvailable) []
      = .error .ContentNotAvailable ∧
    readRemote (fun _ => .error .ContentNotAvailable) [XAtom.HTML]
      = readRemote (fun _ => .error .ContentNotAvailable) [] ∧
    readRemote (fun _ => .error .ContentNotAvailable) [XAtom.HTML]
      = .error .ContentNotAvailable := by
  have h := C7_read_tries_formats_in_order
    (fun _ => .error .ContentNotAvailable) none .HTML [] [.HTML]
  exact ⟨h.1, h.2.1, h.2.2.2.1 rfl, h.2.2.2.2.2 (fun g _ => rfl)⟩

/-- Witness for C8 on a refused ownership assertion. -/
theorem C8_write_stores_before_asserting_ownership_witness :
    (∃ restActions,
      (write false 4 false
          { clipboard := none, primary := none, secondary := none }
          [{ bytes := [1], format := .UTF8_STRING }] .Clipboard .None).2.2
        = WriteAction.storeUpdate .Clipboard [{ bytes := [1], format := .UTF8_STRING }]
            :: WriteAction.sendSetOwner 4 (atom_of .Clipboard) :: restActions) ∧
    (write false 4 false
        { clipboard := none, primary := none, secondary := none }
        [{ bytes := [1], format := .UTF8_STRING }] .Clipboard .None).2.1
      = storeSet { clipboard := none, primary := none, secondary := none }
          .Clipboard (some [{ bytes := [1], format := .UTF8_STRING }]) ∧
    (write false 4 false
        { clipboard := none, primary := none, secondary := none }
        [{ bytes := [1], format := .UTF8_STRING }] .Clipboard .None).1
      = .error .ClipboardOccupied := by
  have h := C8_write_stores_before_asserting_ownership 4 false
    { clipboard := none, primary := none, secondary := none }
    [{ bytes := [1], format := .UTF8_STRING }] .Clipboard .None
  exact ⟨h.1, h.2.1, h.2.2 rfl⟩

/-- Witness for C9: a loop run ending in window destruction produces a
stopped state, and a write against the stopped engine fails immediately. -/
theorem C9_stopped_loop_fails_writes_witness :
    serveRun
        { store := { clipboard := none, primary := none, secondary := none },
          handover := .Idle, written := false, notified := false,
          serveStopped := false, sent := [] }
        [.destroyNotify]
      = some { store := { clipboard := none, primary := none, secondary := none },
               handover := .Idle, written := false, notified := false,
               serveStopped := true, sent := [] } ∧
    ({ store := { clipboard := none, primary := none, secondary := none },
       handover := .Idle, written := false, notified := false,
       serveStopped := true, sent := [] } : ServeState).serveStopped = true ∧
    ∃ description,
      write true 4 true { clipboard := none, primary := none, secondary := none }
          [{ bytes := [1], format := .UTF8_STRING }] .Clipboard .None
        = (.error (.unknown description),
           { clipboard := none, primary := none, secondary := none }, []) := by
  have h := C9_stopped_loop_fails_writes
    { store := { clipboard := none, primary := none, secondary := none },
      handover := .Idle, written := false, notified := false,
      serveStopped := false, sent := [] }
    [.destroyNotify]
    { store := { clipboard := none, primary := none, secondary := none },
      handover := .Idle, written := false, notified := false,
      serveStopped := true, sent := [] }
    4 true { clipboard := none, primary := none, secondary := none }
    [{ bytes := [1], format := .UTF8_STRING }] .Clipboard .None
  exact ⟨by decide, h.1 (by decide), h.2⟩

/-- Witness for C10 on the single invalid byte FF and the HTML format. -/
theorem C10_get_text_decodes_by_format_witness :
    XAtom.HTML ≠ XAtom.STRING ∧
    ((get_text_decode { bytes := [0xFF], format := .STRING } = .ok [0xFF]) ∧
    (get_text_decode { bytes := [0xFF], format := .HTML }
        = .error .ConversionFailure ↔ ¬ ValidUtf8 [0xFF]) ∧
    (∀ scalars,
      get_text_decode { bytes := [0xFF], format := .HTML } = .ok scalars →
        (∀ c ∈ scalars, validScalar c = true) ∧ utf8Encode scalars = [0xFF])) :=
  ⟨by decide, C10_get_text_decodes_by_format [0xFF] .HTML (by decide)⟩

end Arboard
